import Mathlib

/-!
Shallow embedding of `src/scripts/ingest_wikidata.py` (the Helianthus
ingestion pipeline).  Python strings become `String`, Python ints become
`Int`, Python floats become exact decimals (`PyFloat`, mantissa and a
power-of-ten exponent — the pipeline only ever produces floats by parsing
decimal literals, which this represents exactly), `None`-able values
become `Option`, and the SQLAlchemy tables become lists of rows inside a
`Store` structure.  Network responses (SPARQL `results.bindings`) are
passed in as explicit data, so each phase is a pure function of the store
and the responses.  String methods (`replace`, `split`, `rsplit`) are
re-implemented structurally on `List Char` with Python's semantics so that
every definition evaluates inside the kernel.
-/

set_option autoImplicit false

namespace Helianthus

/-- Python truthiness of an optional string (`None` and `""` are falsy). -/
def pyTruthyStr : Option String → Bool
  | none => false
  | some s => s != ""

/-- Python truthiness of an optional integer (`None` and `0` are falsy). -/
def pyTruthyInt : Option Int → Bool
  | none => false
  | some y => y != 0

/-- Whether `p` is a prefix of `l`. -/
def startsWithList : List Char → List Char → Bool
  | [], _ => true
  | _ :: _, [] => false
  | p :: ps, c :: cs => p == c && startsWithList ps cs

/-- Python `s.replace(pat, repl)` on character lists (all non-overlapping
occurrences, left to right; `pat` is assumed non-empty, as in every call
the pipeline makes).  The counter argument skips the remaining characters
of an occurrence that has just been replaced. -/
def replaceAllGo (pat repl : List Char) : List Char → Nat → List Char
  | [], _ => []
  | _ :: cs, k + 1 => replaceAllGo pat repl cs k
  | c :: cs, 0 =>
    if startsWithList pat (c :: cs) && !pat.isEmpty then
      repl ++ replaceAllGo pat repl cs (pat.length - 1)
    else
      c :: replaceAllGo pat repl cs 0

/-- Python `s.replace(pat, repl)`. -/
def pyReplace (s pat repl : String) : String :=
  ⟨replaceAllGo pat.data repl.data s.data 0⟩

/-- Embeds `qid_from_uri` (line 72): `uri.rsplit("/", 1)[-1]`, i.e. the
substring after the last `/`, or the whole string when there is no `/`
(computed as the longest slash-free suffix). -/
def qid_from_uri (uri : String) : String :=
  ⟨(uri.data.reverse.takeWhile (· != '/')).reverse⟩

/-- The characters Python `str.split()` (no argument) treats as whitespace
(ASCII fragment). -/
def pyIsSpace (c : Char) : Bool :=
  c == ' ' || c == '\t' || c == '\n' || c == '\x0d' || c == '\x0b' || c == '\x0c'

/-- Worker for Python `str.split()`: split on whitespace runs, discarding
empty pieces; `acc` holds the current token reversed. -/
def splitWsGo : List Char → List Char → List (List Char)
  | [], acc => if acc.isEmpty then [] else [acc.reverse]
  | c :: cs, acc =>
    if pyIsSpace c then
      if acc.isEmpty then splitWsGo cs [] else acc.reverse :: splitWsGo cs []
    else
      splitWsGo cs (c :: acc)

/-- Python `s.split()` with no argument. -/
def pySplit (s : String) : List String :=
  (splitWsGo s.data []).map fun cs => ⟨cs⟩

/-- Decimal value of a digit character. -/
def digitVal (c : Char) : Nat := c.toNat - 48

/-- Whether a year is a leap year (proleptic Gregorian, as `datetime`). -/
def isLeap (y : Nat) : Bool := y % 4 == 0 && (y % 100 != 0 || y % 400 == 0)

/-- Days in a month, as validated by `datetime`. -/
def daysInMonth (y m : Nat) : Nat :=
  if m == 2 then (if isLeap y then 29 else 28)
  else if m == 4 || m == 6 || m == 9 || m == 11 then 30
  else 31

/-- Valid `HH:MM:SS` / `HH:MM` / `HH` time strings (as characters), the
time formats `datetime.fromisoformat` accepts; fractional seconds and
timezone offsets are outside the modelled fragment. -/
def validTimeChars : List Char → Bool
  | [h1, h2] =>
      h1.isDigit && h2.isDigit && digitVal h1 * 10 + digitVal h2 < 24
  | [h1, h2, ':', n1, n2] =>
      h1.isDigit && h2.isDigit && digitVal h1 * 10 + digitVal h2 < 24 &&
      n1.isDigit && n2.isDigit && digitVal n1 * 10 + digitVal n2 < 60
  | [h1, h2, ':', n1, n2, ':', s1, s2] =>
      h1.isDigit && h2.isDigit && digitVal h1 * 10 + digitVal h2 < 24 &&
      n1.isDigit && n2.isDigit && digitVal n1 * 10 + digitVal n2 < 60 &&
      s1.isDigit && s2.isDigit && digitVal s1 * 10 + digitVal s2 < 60
  | _ => false

/-- Models the fragment of CPython `datetime.fromisoformat` the pipeline
relies on, returning only the `.year` field: a `YYYY-MM-DD` date (year
0001–9999, month and day range-checked against the calendar) optionally
followed by a single separator character and a valid time.  Returns `none`
exactly where CPython raises `ValueError` on this fragment. -/
def fromisoformatYear (s : String) : Option Int :=
  match s.data with
  | y1 :: y2 :: y3 :: y4 :: '-' :: m1 :: m2 :: '-' :: d1 :: d2 :: rest =>
    if y1.isDigit && y2.isDigit && y3.isDigit && y4.isDigit &&
       m1.isDigit && m2.isDigit && d1.isDigit && d2.isDigit then
      let y := digitVal y1 * 1000 + digitVal y2 * 100 + digitVal y3 * 10 + digitVal y4
      let m := digitVal m1 * 10 + digitVal m2
      let d := digitVal d1 * 10 + digitVal d2
      if 1 ≤ y && 1 ≤ m && m ≤ 12 && 1 ≤ d && d ≤ daysInMonth y m then
        match rest with
        | [] => some (Int.ofNat y)
        | _ :: time => if validTimeChars time then some (Int.ofNat y) else none
      else none
    else none
  | _ => none

/-- Embeds the year derivation of `ingest_paintings` (lines 179–186):
`datetime.fromisoformat(date_val.replace("Z", "")).year`, with any parse
failure swallowed to `None`.  Total by construction (never raises). -/
def yearFromDateLiteral (dateVal : String) : Option Int :=
  fromisoformatYear (pyReplace dateVal "Z" "")

/-- An exact decimal number: `mantissa / 10 ^ exponent`.  This represents
the values Python `float(...)` produces in this pipeline (always parsed
from short decimal literals) without rounding. -/
structure PyFloat where
  mantissa : Int
  exponent : Nat
deriving DecidableEq, Repr

/-- The rational value an exact decimal denotes. -/
def PyFloat.toRat (x : PyFloat) : ℚ := (x.mantissa : ℚ) / (10 : ℚ) ^ x.exponent

/-- Fold a digit list into a natural number. -/
def digitsToNat (cs : List Char) : Nat :=
  cs.foldl (fun n c => n * 10 + digitVal c) 0

/-- Models Python `float(s)` on an unsigned plain decimal literal: digits
with an optional decimal point, at least one digit overall (`"12."` and
`".5"` parse; `"."`, `""` and `"abc"` do not).  Exponent notation,
`inf`/`nan`, underscores and surrounding whitespace are outside the
modelled fragment. -/
def decimalValue (cs : List Char) : Option PyFloat :=
  let intPart := cs.takeWhile Char.isDigit
  match cs.dropWhile Char.isDigit with
  | [] =>
    if intPart.isEmpty then none
    else some ⟨Int.ofNat (digitsToNat intPart), 0⟩
  | '.' :: fracPart =>
    if fracPart.all Char.isDigit && !(intPart.isEmpty && fracPart.isEmpty) then
      some ⟨Int.ofNat (digitsToNat intPart * 10 ^ fracPart.length + digitsToNat fracPart),
            fracPart.length⟩
    else none
  | _ => none

/-- Models Python `float(s)` (see `decimalValue`); handles the sign. -/
def pyFloat (s : String) : Option PyFloat :=
  match s.data with
  | '+' :: cs => decimalValue cs
  | '-' :: cs => (decimalValue cs).map fun x => ⟨-x.mantissa, x.exponent⟩
  | cs => decimalValue cs

/-- Embeds the coordinate extraction of `enrich_locations` (lines 245–255),
returning `(latitude, longitude)`.  It mirrors the `try` block statement by
statement: `coords_str = coords_val.replace("Point(", "").replace(")", "")`,
tuple-unpack of `coords_str.split()` (raising unless exactly two tokens),
then `longitude = float(lon_str)` followed by `latitude = float(lat_str)`.
An exception leaves every variable assigned before the raising statement at
its already-assigned value, so when `float(lat_str)` raises after
`float(lon_str)` succeeded, `longitude` keeps its parsed value while
`latitude` stays `None`. -/
def coordinatesFromPointLiteral (coordsVal : String) : Option PyFloat × Option PyFloat :=
  let coords_str := pyReplace (pyReplace coordsVal "Point(" "") ")" ""
  match pySplit coords_str with
  | [lon_str, lat_str] =>
    match pyFloat lon_str with
    | none => (none, none)
    | some lon =>
      match pyFloat lat_str with
      | none => (none, some lon)
      | some lat => (some lat, some lon)
  | _ => (none, none)

/-! ## Store model

The three SQLAlchemy tables become lists of rows.  Surrogate integer keys
are abstracted away: every upsert is keyed by the unique external
`wikidata_id`, and the foreign keys `Painting.artist_id` /
`Painting.location_id` are represented by the referenced row's
`wikidata_id` (`location_id = None` becomes `none`).  ORM row mutation
becomes replacing the first matching row in the list; `session.add`
appends. -/

/-- A row of the `artists` table. -/
structure ArtistRow where
  wikidata_id : String
  name : Option String
deriving DecidableEq, Repr

/-- A row of the `locations` table. -/
structure LocationRow where
  wikidata_id : String
  name : Option String
  latitude : Option PyFloat
  longitude : Option PyFloat
deriving DecidableEq, Repr

/-- A row of the `paintings` table.  `artist` / `location` hold the
referenced row's external id. -/
structure PaintingRow where
  wikidata_id : String
  title : Option String
  year : Option Int
  artist : String
  location : Option String
deriving DecidableEq, Repr

/-- The local store: the three tables. -/
structure Store where
  artists : List ArtistRow
  paintings : List PaintingRow
  locations : List LocationRow
deriving DecidableEq, Repr

/-- `session.query(Painting).filter_by(wikidata_id=qid).first()`. -/
def findPainting (ps : List PaintingRow) (qid : String) : Option PaintingRow :=
  ps.find? (·.wikidata_id == qid)

/-- `session.query(Artist).filter_by(wikidata_id=qid).first()`. -/
def findArtist (arts : List ArtistRow) (qid : String) : Option ArtistRow :=
  arts.find? (·.wikidata_id == qid)

/-- `session.query(Location).filter_by(wikidata_id=qid).first()`. -/
def findLocation (ls : List LocationRow) (qid : String) : Option LocationRow :=
  ls.find? (·.wikidata_id == qid)

/-- Mutating the first row with the given external id (ORM attribute
assignment on the object returned by `.first()`). -/
def updateFirstPainting (ps : List PaintingRow) (qid : String)
    (f : PaintingRow → PaintingRow) : List PaintingRow :=
  match ps with
  | [] => []
  | p :: rest =>
    if p.wikidata_id == qid then f p :: rest
    else p :: updateFirstPainting rest qid f

/-- One raw binding row of the paintings query response:
`row.get(var, {}).get("value")` for the variables `painting`,
`paintingLabel`, `date`. -/
structure BindingRow where
  painting : Option String
  paintingLabel : Option String
  date : Option String
deriving DecidableEq, Repr

/-- `painting.title = p_label or painting.title` (line 202): Python `or`
keeps the stored value only when the new one is falsy (`None` or `""`). -/
def mergeTitle (p_label old : Option String) : Option String :=
  if pyTruthyStr p_label then p_label else old

/-- `painting.year = year or painting.year` (line 203): Python `or` keeps
the stored value only when the new one is falsy (`None` or `0`). -/
def mergeYear (year old : Option Int) : Option Int :=
  if pyTruthyInt year then year else old

/-- The year computed for a binding row (lines 179–186): `None` unless
`date_val` is truthy and parses. -/
def rowYear (date_val : Option String) : Option Int :=
  match date_val with
  | none => none
  | some d => if d != "" then yearFromDateLiteral d else none

/-- Lines 202–203 as one row transformation: the two attribute
assignments on an already-stored painting. -/
def mergeRow (row : BindingRow) (p : PaintingRow) : PaintingRow :=
  { p with title := mergeTitle row.paintingLabel p.title,
           year := mergeYear (rowYear row.date) p.year }

/-- The body of the `for row in bindings` loop of `ingest_paintings`
(lines 169–203) acting on the paintings table, also returning how much
`inserted` grew (0 or 1).  A row without a `painting` URI is skipped. -/
def processPaintingRow (artistQid : String) (ps : List PaintingRow)
    (row : BindingRow) : List PaintingRow × Nat :=
  match row.painting with
  | none => (ps, 0)
  | some p_uri =>
    let p_qid := qid_from_uri p_uri
    match findPainting ps p_qid with
    | some _ => (updateFirstPainting ps p_qid (mergeRow row), 0)
    | none =>
      (ps ++ [{ wikidata_id := p_qid, title := row.paintingLabel,
                year := rowYear row.date,
                artist := artistQid, location := none }], 1)

/-- The whole `for row in bindings` loop, threading the paintings table
and the `inserted` counter. -/
def processPaintingRows (artistQid : String) (ps : List PaintingRow) :
    List BindingRow → List PaintingRow × Nat
  | [] => (ps, 0)
  | row :: rest =>
    let (ps1, n1) := processPaintingRow artistQid ps row
    let (ps2, n2) := processPaintingRows artistQid ps1 rest
    (ps2, n1 + n2)

/-- Embeds `ingest_paintings` (lines 134–206) as a pure function.
`bindings` is the parsed `results.bindings` of the paintings query (the
`LIMIT {limit}` clause lives in the query text, so an unchanged source
observed with the same artist id and limit yields the same `bindings`);
`artistLabel` is the result the side query `fetch_artist_label` would
return, consulted only when the artist is not already stored.  Returns the
new store and the `inserted` counter. -/
def ingest_paintings (s : Store) (artist_qid : String) (artistLabel : Option String)
    (bindings : List BindingRow) : Store × Nat :=
  let arts :=
    match findArtist s.artists artist_qid with
    | some _ => s.artists
    | none => s.artists ++ [{ wikidata_id := artist_qid, name := artistLabel }]
  let pr := processPaintingRows artist_qid s.paintings bindings
  ({ s with artists := arts, paintings := pr.1 }, pr.2)

/-- One raw binding row of the per-painting location query response
(variables `location`, `locationLabel`, `coords`). -/
structure LocBindingRow where
  location : Option String
  locationLabel : Option String
  coords : Option String
deriving DecidableEq, Repr

/-- The coordinate pair for a row (lines 245–255): both stay `None`
unless `coords_val` is truthy; otherwise the partial-assignment parse. -/
def rowCoords (coords_val : Option String) : Option PyFloat × Option PyFloat :=
  match coords_val with
  | none => (none, none)
  | some cv => if cv != "" then coordinatesFromPointLiteral cv else (none, none)

/-- The body of the `for painting in paintings` loop of `enrich_locations`
(lines 219–274) for the painting with external id `pQid`, given the
response `bindings` of its location query.  Only `bindings[0]` is ever
examined; a missing response or a first row without a `location` URI
leaves the store untouched (`continue`). -/
def enrichStep (st : Store) (pQid : String) (bindings : List LocBindingRow) : Store :=
  match bindings.head? with
  | none => st
  | some row =>
    match row.location with
    | none => st
    | some loc_uri =>
      let loc_qid := qid_from_uri loc_uri
      let (latitude, longitude) := rowCoords row.coords
      let locs :=
        match findLocation st.locations loc_qid with
        | some _ => st.locations
        | none => st.locations ++
            [{ wikidata_id := loc_qid, name := row.locationLabel,
               latitude := latitude, longitude := longitude }]
      { st with
        locations := locs,
        paintings := updateFirstPainting st.paintings pQid
          fun p => { p with location := some loc_qid } }

/-- The external ids the phase-2 query
`session.query(Painting).filter(Painting.location_id == None).all()`
selects, in store order.  The query runs once, before the loop. -/
def enrichSelected (s : Store) : List String :=
  (s.paintings.filter (·.location == none)).map (·.wikidata_id)

/-- Embeds `enrich_locations` (lines 212–276) as a pure function.
`responses` maps a painting's external id to the parsed
`results.bindings` of its location query. -/
def enrich_locations (s : Store) (responses : String → List LocBindingRow) : Store :=
  (enrichSelected s).foldl (fun st q => enrichStep st q (responses q)) s

/-! ## Knowledge source client

`wikidata_query` (lines 86–106) is modelled over an oracle giving the
outcome of each attempted HTTP request, and it records its observable
actions (requests and `time.sleep` calls) as a trace. -/

/-- What one attempted HTTP request does: `requests.get` raises
`ReadTimeout`, or `raise_for_status()` raises an `HTTPError` with the
response status (4xx/5xx), or the call returns a JSON body. -/
inductive AttemptOutcome where
  | timeout
  | httpError (status : Nat)
  | ok (body : List BindingRow)
deriving DecidableEq, Repr

/-- An observable action of `wikidata_query`: one HTTP request, or one
`time.sleep(seconds)`. -/
inductive ClientEvent where
  | request
  | sleep (seconds : Nat)
deriving DecidableEq, Repr

/-- How `wikidata_query` terminates: returning a body, propagating the
uncaught `HTTPError`, or raising
`Exception("Wikidata query failed after retries")` when the `for attempt
in range(3)` loop exhausts.  Both error cases propagate out of the calling
phase, which has no handler. -/
inductive QueryOutcome where
  | ok (body : List BindingRow)
  | httpError (status : Nat)
  | retriesExhausted
deriving DecidableEq, Repr

/-- The `for attempt in range(3)` loop of `wikidata_query` (lines 92–106)
run over the list of outcomes of the successive attempts it makes: a
timeout is caught, printed, followed by `time.sleep(3)`, and the loop goes
on; an `HTTPError` propagates at once; after the list (the remaining
attempts) is exhausted, the final `raise` fires. -/
def runAttempts : List AttemptOutcome → QueryOutcome × List ClientEvent
  | [] => (.retriesExhausted, [])
  | o :: rest =>
    match o with
    | .ok body => (.ok body, [.request])
    | .httpError s => (.httpError s, [.request])
    | .timeout =>
      let (r, evs) := runAttempts rest
      (r, .request :: .sleep 3 :: evs)

/-- Embeds `wikidata_query`: at most three attempts are made, drawn from
the oracle `outcomes`. -/
def wikidata_query (outcomes : Nat → AttemptOutcome) : QueryOutcome × List ClientEvent :=
  runAttempts [outcomes 0, outcomes 1, outcomes 2]

/-- Number of HTTP requests in a client trace. -/
def requestCount (evs : List ClientEvent) : Nat :=
  (evs.filter (· == .request)).length

/-! ## Infrastructure lemmas -/

/-- The external ids of the paintings table, in row order. -/
def paintingIds (ps : List PaintingRow) : List String := ps.map (·.wikidata_id)

/-- The external ids of the artists table, in row order. -/
def artistIds (arts : List ArtistRow) : List String := arts.map (·.wikidata_id)

lemma updateFirstPainting_ids (ps : List PaintingRow) (q : String)
    (f : PaintingRow → PaintingRow) (hf : ∀ p, (f p).wikidata_id = p.wikidata_id) :
    paintingIds (updateFirstPainting ps q f) = paintingIds ps := by
  induction ps with
  | nil => rfl
  | cons p rest ih =>
    simp only [updateFirstPainting]
    split
    · simp [paintingIds, hf]
    · simpa [paintingIds] using ih

lemma findPainting_updateFirst_self (ps : List PaintingRow) (q : String)
    (f : PaintingRow → PaintingRow) (hf : ∀ p, (f p).wikidata_id = p.wikidata_id) :
    findPainting (updateFirstPainting ps q f) q = (findPainting ps q).map f := by
  induction ps with
  | nil => rfl
  | cons p rest ih =>
    by_cases h : p.wikidata_id == q
    · simp [updateFirstPainting, findPainting, h, List.find?_cons, hf]
    · simp only [updateFirstPainting, findPainting, if_neg h] at ih ⊢
      simpa [List.find?_cons, h] using ih

lemma findPainting_updateFirst_ne (ps : List PaintingRow) (q q' : String)
    (f : PaintingRow → PaintingRow) (hf : ∀ p, (f p).wikidata_id = p.wikidata_id)
    (hne : q' ≠ q) :
    findPainting (updateFirstPainting ps q f) q' = findPainting ps q' := by
  induction ps with
  | nil => rfl
  | cons p rest ih =>
    by_cases h : p.wikidata_id == q
    · have hpq : p.wikidata_id = q := by simpa using h
      have h' : ((f p).wikidata_id == q') = false := by
        simp [hf, hpq, (by simpa using hne.symm : ¬ q = q')]
      have h'' : (p.wikidata_id == q') = false := by
        simp [hpq, (by simpa using hne.symm : ¬ q = q')]
      simp [updateFirstPainting, findPainting, h, List.find?_cons, h', h'']
    · simp only [updateFirstPainting, findPainting, if_neg h] at ih ⊢
      by_cases h2 : p.wikidata_id == q'
      · simp [List.find?_cons, h2]
      · simpa [List.find?_cons, h2] using ih

lemma findPainting_append (ps qs : List PaintingRow) (q : String) :
    findPainting (ps ++ qs) q = (findPainting ps q).or (findPainting qs q) :=
  List.find?_append

lemma findPainting_isSome_iff (ps : List PaintingRow) (q : String) :
    (findPainting ps q).isSome ↔ q ∈ paintingIds ps := by
  simp only [findPainting, List.find?_isSome, paintingIds, List.mem_map]
  constructor
  · rintro ⟨p, hp, hq⟩; exact ⟨p, hp, by simpa using hq⟩
  · rintro ⟨p, hp, hq⟩; exact ⟨p, hp, by simpa using hq⟩

lemma findPainting_eq_of_nodup (ps : List PaintingRow) (p : PaintingRow)
    (hnd : (paintingIds ps).Nodup) (hp : p ∈ ps) :
    findPainting ps p.wikidata_id = some p := by
  induction ps with
  | nil => cases hp
  | cons h rest ih =>
    simp only [paintingIds, List.map_cons, List.nodup_cons] at hnd
    rcases List.mem_cons.mp hp with rfl | hmem
    · simp [findPainting, List.find?_cons]
    · have hne : (h.wikidata_id == p.wikidata_id) = false := by
        have : p.wikidata_id ∈ rest.map (·.wikidata_id) := List.mem_map.mpr ⟨p, hmem, rfl⟩
        simp only [beq_eq_false_iff_ne, ne_eq]
        intro he; exact hnd.1 (he ▸ this)
      simp only [findPainting, List.find?_cons, hne, cond_false]
      exact ih hnd.2 hmem

lemma processPaintingRow_suffix (a : String) (ps : List PaintingRow) (row : BindingRow) :
    ∃ t, paintingIds (processPaintingRow a ps row).1 = paintingIds ps ++ t := by
  unfold processPaintingRow
  cases hu : row.painting with
  | none => exact ⟨[], by simp⟩
  | some u =>
    cases hf : findPainting ps (qid_from_uri u) with
    | some p =>
      refine ⟨[], ?_⟩
      simp only [hf, List.append_nil]
      exact updateFirstPainting_ids _ _ _ (fun p => rfl)
    | none => exact ⟨[qid_from_uri u], by simp [hf, paintingIds]⟩

lemma processPaintingRows_suffix (a : String) (ps : List PaintingRow)
    (rows : List BindingRow) :
    ∃ t, paintingIds (processPaintingRows a ps rows).1 = paintingIds ps ++ t := by
  induction rows generalizing ps with
  | nil => exact ⟨[], by simp [processPaintingRows]⟩
  | cons row rest ih =>
    obtain ⟨t1, h1⟩ := processPaintingRow_suffix a ps row
    obtain ⟨t2, h2⟩ := ih (processPaintingRow a ps row).1
    exact ⟨t1 ++ t2, by simp [processPaintingRows, h2, h1]⟩

lemma processPaintingRow_covers (a : String) (ps : List PaintingRow) (row : BindingRow)
    (u : String) (hu : row.painting = some u) :
    qid_from_uri u ∈ paintingIds (processPaintingRow a ps row).1 := by
  unfold processPaintingRow
  rw [hu]
  cases hf : findPainting ps (qid_from_uri u) with
  | some p =>
    have hm : qid_from_uri u ∈ paintingIds ps :=
      (findPainting_isSome_iff ps (qid_from_uri u)).mp (by simp [hf])
    simp only [hf]
    rw [updateFirstPainting_ids ps (qid_from_uri u) (mergeRow row) (fun p => rfl)]
    exact hm
  | none => simp [hf, paintingIds]

lemma processPaintingRows_covers (a : String) (ps : List PaintingRow)
    (rows : List BindingRow) (row : BindingRow) (u : String)
    (hrow : row ∈ rows) (hu : row.painting = some u) :
    qid_from_uri u ∈ paintingIds (processPaintingRows a ps rows).1 := by
  induction rows generalizing ps with
  | nil => cases hrow
  | cons r rest ih =>
    simp only [processPaintingRows]
    rcases List.mem_cons.mp hrow with rfl | hmem
    · obtain ⟨t, ht⟩ := processPaintingRows_suffix a (processPaintingRow a ps row).1 rest
      have := processPaintingRow_covers a ps row u hu
      simp only [ht]
      exact List.mem_append.mpr (Or.inl this)
    · exact ih (processPaintingRow a ps r).1 hmem

lemma processPaintingRows_stable (a : String) (ps : List PaintingRow)
    (rows : List BindingRow)
    (h : ∀ row ∈ rows, ∀ u, row.painting = some u → qid_from_uri u ∈ paintingIds ps) :
    paintingIds (processPaintingRows a ps rows).1 = paintingIds ps ∧
    (processPaintingRows a ps rows).2 = 0 := by
  induction rows generalizing ps with
  | nil => simp [processPaintingRows]
  | cons row rest ih =>
    have hstep : paintingIds (processPaintingRow a ps row).1 = paintingIds ps ∧
        (processPaintingRow a ps row).2 = 0 := by
      unfold processPaintingRow
      cases hu : row.painting with
      | none => simp
      | some u =>
        have hmem := h row (List.mem_cons_self _ _) u hu
        have hsome : (findPainting ps (qid_from_uri u)).isSome :=
          (findPainting_isSome_iff ps (qid_from_uri u)).mpr hmem
        cases hf : findPainting ps (qid_from_uri u) with
        | none => rw [hf] at hsome; cases hsome
        | some p =>
          simp only [hf]
          exact ⟨updateFirstPainting_ids _ _ _ (fun p => rfl), trivial⟩
    have hrest : ∀ r ∈ rest, ∀ u, r.painting = some u →
        qid_from_uri u ∈ paintingIds (processPaintingRow a ps row).1 := by
      intro r hr u hu
      rw [hstep.1]
      exact h r (List.mem_cons_of_mem _ hr) u hu
    obtain ⟨h1, h2⟩ := ih (processPaintingRow a ps row).1 hrest
    constructor
    · simp only [processPaintingRows]; rw [h1, hstep.1]
    · simp only [processPaintingRows]; rw [h2, hstep.2]

lemma findArtist_append (l1 l2 : List ArtistRow) (q : String) :
    findArtist (l1 ++ l2) q = (findArtist l1 q).or (findArtist l2 q) :=
  List.find?_append

lemma ingest_artist_present (s : Store) (qid : String) (lbl : Option String)
    (bindings : List BindingRow) :
    (findArtist (ingest_paintings s qid lbl bindings).1.artists qid).isSome := by
  simp only [ingest_paintings]
  cases hf : findArtist s.artists qid with
  | some a => simp [hf]
  | none => simp [hf, findArtist_append, findArtist, List.find?_cons]

lemma processPaintingRow_find_location (a : String) (ps : List PaintingRow)
    (row : BindingRow) (pid : String) (p' : PaintingRow)
    (h : findPainting ps pid = some p') :
    ∃ p'', findPainting (processPaintingRow a ps row).1 pid = some p'' ∧
      p''.location = p'.location := by
  unfold processPaintingRow
  cases hu : row.painting with
  | none => exact ⟨p', h, rfl⟩
  | some u =>
    cases hf : findPainting ps (qid_from_uri u) with
    | some x =>
      by_cases hq : qid_from_uri u = pid
      · subst hq
        have hff := findPainting_updateFirst_self ps (qid_from_uri u) (mergeRow row)
          (fun p => rfl)
        rw [h] at hff
        simp only [Option.map_some'] at hff
        exact ⟨mergeRow row p', by simp only [hf]; exact hff, rfl⟩
      · refine ⟨p', ?_, rfl⟩
        simp only [hf]
        exact (findPainting_updateFirst_ne ps (qid_from_uri u) pid (mergeRow row)
          (fun p => rfl) (Ne.symm hq)).trans h
    | none =>
      refine ⟨p', ?_, rfl⟩
      simp only [hf]
      rw [findPainting_append, h]
      rfl

lemma processPaintingRows_find_location (a : String) (rows : List BindingRow) :
    ∀ (ps : List PaintingRow) (pid : String) (p' : PaintingRow),
    findPainting ps pid = some p' →
    ∃ p'', findPainting (processPaintingRows a ps rows).1 pid = some p'' ∧
      p''.location = p'.location := by
  induction rows with
  | nil => exact fun ps pid p' h => ⟨p', h, rfl⟩
  | cons row rest ih =>
    intro ps pid p' h
    obtain ⟨p1, h1, hl1⟩ := processPaintingRow_find_location a ps row pid p' h
    obtain ⟨p2, h2, hl2⟩ := ih (processPaintingRow a ps row).1 pid p1 h1
    exact ⟨p2, by simpa [processPaintingRows] using h2, hl2.trans hl1⟩

lemma enrichStep_locations_suffix (st : Store) (q : String) (b : List LocBindingRow) :
    ∃ t, (enrichStep st q b).locations = st.locations ++ t := by
  unfold enrichStep
  cases hb : b.head? with
  | none => exact ⟨[], by simp⟩
  | some row =>
    cases hrow : row.location with
    | none => exact ⟨[], by simp [hrow]⟩
    | some loc_uri =>
      cases hf : findLocation st.locations (qid_from_uri loc_uri) with
      | some l => exact ⟨[], by simp [hrow, hf]⟩
      | none =>
        exact ⟨[{ wikidata_id := qid_from_uri loc_uri, name := row.locationLabel,
                  latitude := (rowCoords row.coords).1,
                  longitude := (rowCoords row.coords).2 }], by simp [hrow, hf]⟩

lemma foldl_enrichStep_locations_suffix (responses : String → List LocBindingRow)
    (sel : List String) :
    ∀ st : Store,
    ∃ t, ((sel.foldl (fun st q => enrichStep st q (responses q)) st)).locations =
      st.locations ++ t := by
  induction sel with
  | nil => exact fun st => ⟨[], by simp⟩
  | cons q rest ih =>
    intro st
    obtain ⟨t1, h1⟩ := enrichStep_locations_suffix st q (responses q)
    obtain ⟨t2, h2⟩ := ih (enrichStep st q (responses q))
    exact ⟨t1 ++ t2, by simp [List.foldl_cons, h2, h1]⟩

lemma enrichStep_nil (st : Store) (q : String) : enrichStep st q [] = st := rfl

lemma enrichStep_nouri (st : Store) (q : String) (row : LocBindingRow)
    (rest : List LocBindingRow) (h : row.location = none) :
    enrichStep st q (row :: rest) = st := by
  simp [enrichStep, h]

lemma enrichStep_find_ne (st : Store) (q pid : String) (b : List LocBindingRow)
    (hne : q ≠ pid) :
    findPainting (enrichStep st q b).paintings pid = findPainting st.paintings pid := by
  unfold enrichStep
  cases hb : b.head? with
  | none => rfl
  | some row =>
    cases hrow : row.location with
    | none => simp [hrow]
    | some loc_uri =>
      simp only [hrow]
      exact findPainting_updateFirst_ne st.paintings q pid
        (fun p => { p with location := some (qid_from_uri loc_uri) })
        (fun p => rfl) (Ne.symm hne)

/-- The per-selected-painting condition under which one pass of the
phase-2 loop cannot touch the painting `pid`: the loop variable differs
from `pid`, or the query response for it makes the loop `continue` (no
binding rows, or a first row without a location URI). -/
def stepPreserves (responses : String → List LocBindingRow) (pid q : String) : Prop :=
  q ≠ pid ∨ responses q = [] ∨
    ∃ row rest, responses q = row :: rest ∧ row.location = none

lemma foldl_enrichStep_find (responses : String → List LocBindingRow) (pid : String)
    (sel : List String) :
    ∀ st : Store, (∀ q ∈ sel, stepPreserves responses pid q) →
    findPainting ((sel.foldl (fun st q => enrichStep st q (responses q)) st)).paintings pid =
      findPainting st.paintings pid := by
  induction sel with
  | nil => exact fun st _ => rfl
  | cons q rest ih =>
    intro st h
    have hstep : findPainting (enrichStep st q (responses q)).paintings pid =
        findPainting st.paintings pid := by
      rcases h q (List.mem_cons_self _ _) with hne | hnil | ⟨row, rrest, hr, hl⟩
      · exact enrichStep_find_ne st q pid (responses q) hne
      · rw [hnil, enrichStep_nil]
      · rw [hr, enrichStep_nouri st q row rrest hl]
    rw [List.foldl_cons, ih _ (fun q' hq' => h q' (List.mem_cons_of_mem _ hq')), hstep]

lemma mem_enrichSelected_iff (s : Store) (q : String) :
    q ∈ enrichSelected s ↔
      ∃ p, p ∈ s.paintings ∧ p.wikidata_id = q ∧ p.location = none := by
  simp only [enrichSelected, List.mem_map, List.mem_filter, beq_iff_eq]
  constructor
  · rintro ⟨p, ⟨hp, hl⟩, rfl⟩; exact ⟨p, hp, rfl, hl⟩
  · rintro ⟨p, hp, rfl, hl⟩; exact ⟨p, ⟨hp, hl⟩, rfl⟩

lemma stepPreserves_of_located (s : Store) (responses : String → List LocBindingRow)
    (p : PaintingRow) (l : String) (hnd : (paintingIds s.paintings).Nodup)
    (hp : p ∈ s.paintings) (hl : p.location = some l) :
    ∀ q ∈ enrichSelected s, stepPreserves responses p.wikidata_id q := by
  intro q hq
  obtain ⟨r, hr, hrq, hrl⟩ := (mem_enrichSelected_iff s q).mp hq
  left
  intro he
  have heq : r = p := List.inj_on_of_nodup_map hnd hr hp (by rw [hrq, he])
  rw [heq, hl] at hrl
  cases hrl

lemma ingest_artists_of_present (s : Store) (qid : String) (lbl : Option String)
    (bindings : List BindingRow) (h : (findArtist s.artists qid).isSome) :
    (ingest_paintings s qid lbl bindings).1.artists = s.artists := by
  simp only [ingest_paintings]
  cases hfa : findArtist s.artists qid with
  | none => rw [hfa] at h; cases h
  | some a => simp [hfa]

lemma digit_ne_Z (c : Char) (h : c.isDigit = true) : (c != 'Z') = true := by
  simp only [bne_iff_ne, ne_eq]
  intro he
  rw [he] at h
  exact absurd h (by decide)

lemma replaceAllGo_singleton (c : Char) (l : List Char) :
    replaceAllGo [c] [] l 0 = l.filter (· != c) := by
  induction l with
  | nil => rfl
  | cons x xs ih =>
    by_cases h : c = x
    · subst h
      simp [replaceAllGo, startsWithList, ih]
    · have hb : (c == x) = false := by simp [h]
      have hb2 : (x != c) = true := by simp [bne_iff_ne]; exact fun he => h he.symm
      simp [replaceAllGo, startsWithList, hb, hb2, ih]

lemma pyReplace_Z_filter (l : List Char) :
    pyReplace ⟨l⟩ "Z" "" = ⟨l.filter (· != 'Z')⟩ := by
  show String.mk (replaceAllGo ['Z'] [] l 0) = String.mk (l.filter (· != 'Z'))
  rw [replaceAllGo_singleton]

/-! ## Claim theorems -/

/-- C3: idempotence of the paintings phase.  For every store state, artist
external id, artist-label side-query result and (unchanged) source
response, running `ingest_paintings` a second time with the same inputs
leaves the lists of Painting and Artist external ids exactly as they were
after the first run (so no duplicate rows appear), and the second run's
`inserted` counter is 0. -/
theorem paintings_phase_idempotent (s : Store) (qid : String) (lbl : Option String)
    (bindings : List BindingRow) :
    (ingest_paintings (ingest_paintings s qid lbl bindings).1 qid lbl bindings).2 = 0 ∧
    artistIds (ingest_paintings (ingest_paintings s qid lbl bindings).1 qid lbl
        bindings).1.artists =
      artistIds (ingest_paintings s qid lbl bindings).1.artists ∧
    paintingIds (ingest_paintings (ingest_paintings s qid lbl bindings).1 qid lbl
        bindings).1.paintings =
      paintingIds (ingest_paintings s qid lbl bindings).1.paintings := by
  have hps1 : (ingest_paintings s qid lbl bindings).1.paintings =
      (processPaintingRows qid s.paintings bindings).1 := rfl
  have hcov : ∀ row ∈ bindings, ∀ u, row.painting = some u →
      qid_from_uri u ∈ paintingIds (ingest_paintings s qid lbl bindings).1.paintings := by
    intro row hr u hu
    rw [hps1]
    exact processPaintingRows_covers qid s.paintings bindings row u hr hu
  obtain ⟨hids, hcnt⟩ := processPaintingRows_stable qid
    (ingest_paintings s qid lbl bindings).1.paintings bindings hcov
  refine ⟨hcnt, ?_, hids⟩
  rw [ingest_artists_of_present _ _ _ _ (ingest_artist_present s qid lbl bindings)]

/-- C1, counterexample: the claim says a Location stored with null
coordinates, later observed with non-null coordinates, is updated to
carry them.  On the code it is false: `enrich_locations` looks the
Location up by external id and, when it exists, performs no update at
all.  Here the store already holds Location "Q90" with null coordinates,
the enrichment observes "Q90" again with coordinates
"Point(2.33 48.85)" (which parse to longitude 2.33, latitude 48.85,
as the last conjunct shows), yet the stored row still has null latitude
and longitude afterwards. -/
theorem location_fill_once_counterexample :
    (enrich_locations
        ⟨[⟨"Q5582", none⟩],
         [⟨"P1", some "t", none, "Q5582", none⟩],
         [⟨"Q90", some "Paris", none, none⟩]⟩
        (fun _ => [⟨some "http://www.wikidata.org/entity/Q90", some "Paris",
                    some "Point(2.33 48.85)"⟩])).locations =
      [⟨"Q90", some "Paris", none, none⟩] ∧
    rowCoords (some "Point(2.33 48.85)") = (some ⟨4885, 2⟩, some ⟨233, 2⟩) := by
  constructor
  · decide
  · decide

/-- C1, amended: the enrichment phase never modifies an existing Location
row — the stored rows survive verbatim as a prefix of the table, new rows
are only appended.  In particular a Location with null coordinates is
NOT filled by a later observation carrying coordinates (only a freshly
created row carries the observed coordinates), and a non-null stored
latitude is never overwritten by a different later value. -/
theorem location_rows_never_modified (s : Store)
    (responses : String → List LocBindingRow) :
    ∃ t, (enrich_locations s responses).locations = s.locations ++ t :=
  foldl_enrichStep_locations_suffix responses (enrichSelected s) s

/-- C2, counterexample: the claim says a stored field is only replaced by
a newly observed non-null value when the stored field was previously
null.  On the code it is false: line 202 (`painting.title = p_label or
painting.title`) replaces the stored title whenever the new label is
truthy.  Here the stored painting "P1" has the non-null title "Original
Title", the response carries the non-null label "Different Title", and
after the upsert the stored title is "Different Title" — the non-null
stored value was overwritten. -/
theorem painting_update_overwrite_counterexample :
    ((ingest_paintings
        ⟨[⟨"Q5582", some "V"⟩],
         [⟨"P1", some "Original Title", some 1888, "Q5582", none⟩], []⟩
        "Q5582" (some "V")
        [⟨some "http://www.wikidata.org/entity/P1", some "Different Title",
          none⟩]).1.paintings.map (·.title)) = [some "Different Title"] := by
  decide

/-- C2, amended: the merge of lines 201–203 never overwrites an existing
field with null — a `None` observed title or year keeps the stored value —
and an existing non-null year observed as `None` is likewise retained;
but a truthy newly observed value always replaces the stored field,
whether or not the stored field was previously null. -/
theorem painting_update_non_destructive (old : Option String) (oldy : Option Int)
    (lbl : Option String) (y : Option Int) :
    mergeTitle none old = old ∧
    mergeYear none oldy = oldy ∧
    (pyTruthyStr lbl = true → mergeTitle lbl old = lbl) ∧
    (pyTruthyInt y = true → mergeYear y oldy = y) := by
  refine ⟨rfl, rfl, ?_, ?_⟩
  · intro h; simp [mergeTitle, h]
  · intro h; simp [mergeYear, h]

/-- Witness for the amended C2 theorem at concrete inputs: stored title
"A" with observed `None` stays "A"; stored title "A" with observed
truthy "B" becomes "B". -/
theorem painting_update_non_destructive_witness :
    mergeTitle none (some "A") = some "A" ∧
    (pyTruthyStr (some "B") = true → mergeTitle (some "B") (some "A") = some "B") ∧
    mergeTitle (some "B") (some "A") = some "B" := by
  have h := painting_update_non_destructive (some "A") (some (1888 : Int))
    (some "B") (some (1999 : Int))
  exact ⟨h.1, h.2.2.1, h.2.2.1 (by decide)⟩

/-- C4: end-to-end paintings-phase scenario.  From an empty store, with
artist id "Q5582" and a source response of 3 rows (one with a valid date,
one with no date, one with no painting URI — with `limit` 5 the `LIMIT 5`
clause is part of the query text, so the response is exactly these 3
rows), the phase inserts exactly 2 paintings, skips the URI-less row
without error (the function is total and the row leaves no trace),
creates exactly 1 artist, sets the dated row's year to 1889 and leaves
the undated row's year null. -/
theorem paintings_phase_scenario :
    ingest_paintings ⟨[], [], []⟩ "Q5582" (some "Vincent van Gogh")
      [⟨some "http://www.wikidata.org/entity/Q45585", some "The Starry Night",
          some "1889-06-01T00:00:00Z"⟩,
       ⟨some "http://www.wikidata.org/entity/Q45714", some "Sunflowers", none⟩,
       ⟨none, some "orphan label", some "1888-01-01T00:00:00Z"⟩] =
    (⟨[⟨"Q5582", some "Vincent van Gogh"⟩],
      [⟨"Q45585", some "The Starry Night", some 1889, "Q5582", none⟩,
       ⟨"Q45714", some "Sunflowers", none, "Q5582", none⟩],
      []⟩, 2) := by
  decide

/-- C10: the merge of lines 202–203 decides field absence by Python
truthiness, not nullness: a newly observed empty-string title or year 0
never replaces a stored value, and a stored year 0 or empty-string title
is treated as absent — any truthy newly observed value overwrites it. -/
theorem merge_truthiness (old : Option String) (oldy : Option Int)
    (t : String) (y : Int) :
    mergeTitle (some "") old = old ∧
    mergeYear (some 0) oldy = oldy ∧
    (t ≠ "" → mergeTitle (some t) (some "") = some t) ∧
    (y ≠ 0 → mergeYear (some y) (some 0) = some y) := by
  refine ⟨rfl, rfl, ?_, ?_⟩
  · intro h; simp [mergeTitle, pyTruthyStr, h]
  · intro h; simp [mergeYear, pyTruthyInt, h]

/-- Witness for C10 at concrete inputs: an observed empty title does not
replace the stored "A"; observed year 0 does not replace the stored 1888;
a stored empty title is overwritten by the truthy "B"; a stored year 0 is
overwritten by the truthy 1999. -/
theorem merge_truthiness_witness :
    mergeTitle (some "") (some "A") = some "A" ∧
    mergeYear (some 0) (some 1888) = some 1888 ∧
    mergeTitle (some "B") (some "") = some "B" ∧
    mergeYear (some 1999) (some 0) = some 1999 := by
  have h := merge_truthiness (some "A") (some (1888 : Int)) "B" (1999 : Int)
  exact ⟨h.1, h.2.1, h.2.2.1 (by decide), h.2.2.2 (by decide)⟩

/-- C5: painting location state machine (stated for stores whose painting
external ids are pairwise distinct, the unique-index invariant of the
schema).  (1) Phase 2 selects exactly the paintings whose location
reference is unset.  (2) A painting whose location query yields no
binding rows is left untouched — location still unset, so a future run
re-selects it.  (3) A located painting is never changed by phase 2: no
operation clears or replaces its non-null location.  (4) Phase 1 likewise
never changes a painting's location: an already-located painting is still
located, with the same location, after any `ingest_paintings` run. -/
theorem painting_location_state_machine (s : Store)
    (responses : String → List LocBindingRow) (qid : String) (lbl : Option String)
    (bindings : List BindingRow) (hnd : (paintingIds s.paintings).Nodup) :
    (∀ q, q ∈ enrichSelected s ↔
        ∃ p, p ∈ s.paintings ∧ p.wikidata_id = q ∧ p.location = none) ∧
    (∀ p, p ∈ s.paintings → p.location = none → responses p.wikidata_id = [] →
        findPainting (enrich_locations s responses).paintings p.wikidata_id = some p) ∧
    (∀ p, p ∈ s.paintings → ∀ l, p.location = some l →
        findPainting (enrich_locations s responses).paintings p.wikidata_id = some p) ∧
    (∀ p, p ∈ s.paintings → ∀ l, p.location = some l →
        ∃ p', findPainting (ingest_paintings s qid lbl bindings).1.paintings
            p.wikidata_id = some p' ∧ p'.location = some l) := by
  refine ⟨mem_enrichSelected_iff s, ?_, ?_, ?_⟩
  · intro p hp hloc hresp
    have hpre : ∀ q ∈ enrichSelected s, stepPreserves responses p.wikidata_id q := by
      intro q hq
      by_cases he : q = p.wikidata_id
      · subst he; exact Or.inr (Or.inl hresp)
      · exact Or.inl he
    unfold enrich_locations
    rw [foldl_enrichStep_find responses p.wikidata_id (enrichSelected s) s hpre]
    exact findPainting_eq_of_nodup s.paintings p hnd hp
  · intro p hp l hloc
    have hpre := stepPreserves_of_located s responses p l hnd hp hloc
    unfold enrich_locations
    rw [foldl_enrichStep_find responses p.wikidata_id (enrichSelected s) s hpre]
    exact findPainting_eq_of_nodup s.paintings p hnd hp
  · intro p hp l hloc
    have h := findPainting_eq_of_nodup s.paintings p hnd hp
    obtain ⟨p', hfind, hl⟩ := processPaintingRows_find_location qid bindings
      s.paintings p.wikidata_id p h
    exact ⟨p', hfind, by rw [hl, hloc]⟩

/-- Witness for C5: a store with a located painting "P1" and an unset
painting "P2" whose query returns nothing; after enrichment "P1" is
unchanged (still located at "L1") and "P2" is unchanged (still unset),
and after a phase-1 run on the same store "P1" is still located at
"L1". -/
theorem painting_location_state_machine_witness :
    findPainting (enrich_locations
        ⟨[], [⟨"P1", none, none, "QA", some "L1"⟩,
              ⟨"P2", none, none, "QA", none⟩], []⟩ (fun _ => [])).paintings "P1" =
      some ⟨"P1", none, none, "QA", some "L1"⟩ ∧
    findPainting (enrich_locations
        ⟨[], [⟨"P1", none, none, "QA", some "L1"⟩,
              ⟨"P2", none, none, "QA", none⟩], []⟩ (fun _ => [])).paintings "P2" =
      some ⟨"P2", none, none, "QA", none⟩ ∧
    ∃ p', findPainting (ingest_paintings
        ⟨[], [⟨"P1", none, none, "QA", some "L1"⟩,
              ⟨"P2", none, none, "QA", none⟩], []⟩ "QA" none []).1.paintings "P1" =
      some p' ∧ p'.location = some "L1" := by
  have h := painting_location_state_machine
    ⟨[], [⟨"P1", none, none, "QA", some "L1"⟩, ⟨"P2", none, none, "QA", none⟩], []⟩
    (fun _ => []) "QA" none [] (by decide)
  exact ⟨h.2.2.1 ⟨"P1", none, none, "QA", some "L1"⟩ (by decide) "L1" rfl,
         h.2.1 ⟨"P2", none, none, "QA", none⟩ (by decide) rfl rfl,
         h.2.2.2 ⟨"P1", none, none, "QA", some "L1"⟩ (by decide) "L1" rfl⟩

/-- C9: in the enrichment phase only `bindings[0]` of a painting's
location query is examined; when that first row has no `location` value
the painting is skipped for this run — its row (location still unset) is
unchanged — regardless of what later rows of the same response contain.
(Stated for stores whose painting ids are pairwise distinct.) -/
theorem enrich_first_row_only (s : Store) (responses : String → List LocBindingRow)
    (p : PaintingRow) (row : LocBindingRow) (rest : List LocBindingRow)
    (hnd : (paintingIds s.paintings).Nodup) (hp : p ∈ s.paintings)
    (hloc : p.location = none)
    (hresp : responses p.wikidata_id = row :: rest) (hrow : row.location = none) :
    findPainting (enrich_locations s responses).paintings p.wikidata_id = some p := by
  have hpre : ∀ q ∈ enrichSelected s, stepPreserves responses p.wikidata_id q := by
    intro q hq
    by_cases he : q = p.wikidata_id
    · subst he; exact Or.inr (Or.inr ⟨row, rest, hresp, hrow⟩)
    · exact Or.inl he
  unfold enrich_locations
  rw [foldl_enrichStep_find responses p.wikidata_id (enrichSelected s) s hpre]
  exact findPainting_eq_of_nodup s.paintings p hnd hp

/-- Witness for C9: the response's first row has no location URI while its
SECOND row carries a usable URI and coordinates; the painting is still
skipped — unchanged, location unset. -/
theorem enrich_first_row_only_witness :
    findPainting (enrich_locations
        ⟨[], [⟨"P1", none, none, "QA", none⟩], []⟩
        (fun _ => [⟨none, some "lbl", some "Point(2.33 48.85)"⟩,
                   ⟨some "http://www.wikidata.org/entity/Q90", some "Paris",
                    some "Point(2.33 48.85)"⟩])).paintings "P1" =
      some ⟨"P1", none, none, "QA", none⟩ :=
  enrich_first_row_only
    ⟨[], [⟨"P1", none, none, "QA", none⟩], []⟩
    (fun _ => [⟨none, some "lbl", some "Point(2.33 48.85)"⟩,
               ⟨some "http://www.wikidata.org/entity/Q90", some "Paris",
                some "Point(2.33 48.85)"⟩])
    ⟨"P1", none, none, "QA", none⟩
    ⟨none, some "lbl", some "Point(2.33 48.85)"⟩ _
    (by decide) (by decide) rfl rfl rfl

/-- C6: the client retry contract of `wikidata_query`.  When every
attempt read-times-out, exactly 3 requests are made with a 3-second sleep
after each timeout (in particular between consecutive attempts), and the
call ends in the `retriesExhausted` error — the final uncaught `raise`,
which aborts the calling phase since neither phase has a handler.  A
non-timeout HTTP error (4xx/5xx status from `raise_for_status`) at any
attempt propagates at once: the trace ends at that request, with no
further request after it.  A successful body is returned immediately. -/
theorem wikidata_query_retry_contract (outcomes : Nat → AttemptOutcome) (st : Nat)
    (body : List BindingRow) :
    ((∀ i, i < 3 → outcomes i = .timeout) →
      wikidata_query outcomes =
        (.retriesExhausted,
         [.request, .sleep 3, .request, .sleep 3, .request, .sleep 3]) ∧
      requestCount (wikidata_query outcomes).2 = 3) ∧
    (outcomes 0 = .httpError st →
      wikidata_query outcomes = (.httpError st, [.request])) ∧
    (outcomes 0 = .timeout → outcomes 1 = .httpError st →
      wikidata_query outcomes = (.httpError st, [.request, .sleep 3, .request])) ∧
    (outcomes 0 = .timeout → outcomes 1 = .timeout → outcomes 2 = .httpError st →
      wikidata_query outcomes =
        (.httpError st, [.request, .sleep 3, .request, .sleep 3, .request])) ∧
    (outcomes 0 = .ok body → wikidata_query outcomes = (.ok body, [.request])) := by
  refine ⟨?_, ?_, ?_, ?_, ?_⟩
  · intro h
    unfold wikidata_query
    rw [h 0 (by omega), h 1 (by omega), h 2 (by omega)]
    exact ⟨rfl, rfl⟩
  · intro h0
    unfold wikidata_query
    rw [h0]
    rfl
  · intro h0 h1
    unfold wikidata_query
    rw [h0, h1]
    rfl
  · intro h0 h1 h2
    unfold wikidata_query
    rw [h0, h1, h2]
    rfl
  · intro h0
    unfold wikidata_query
    rw [h0]
    rfl

/-- Witness for C6: three timeouts exhaust the retries with the full
trace; an immediate 503 propagates after a single request with no retry. -/
theorem wikidata_query_retry_contract_witness :
    wikidata_query (fun _ => .timeout) =
      (.retriesExhausted,
       [.request, .sleep 3, .request, .sleep 3, .request, .sleep 3]) ∧
    wikidata_query (fun i => if i = 0 then .httpError 503 else .timeout) =
      (.httpError 503, [.request]) := by
  refine ⟨((wikidata_query_retry_contract (fun _ => .timeout) 503 []).1
      (fun i _ => rfl)).1, ?_⟩
  exact (wikidata_query_retry_contract
    (fun i => if i = 0 then .httpError 503 else .timeout) 503 []).2.1 rfl

/-- C8, counterexample: the claim says every malformed literal that does
not split into exactly two numeric tokens yields null for BOTH
coordinates.  On the code it is false: for "Point(12.34 abc)" the split
gives two tokens, `longitude = float("12.34")` is assigned first, then
`float("abc")` raises — the swallowed exception leaves longitude at
12.34 (= 1234/10²) while only latitude is null. -/
theorem coordinates_overwrite_counterexample :
    coordinatesFromPointLiteral "Point(12.34 abc)" = (none, some ⟨1234, 2⟩) ∧
    (coordinatesFromPointLiteral "Point(12.34 abc)").2 ≠ none := by
  exact ⟨by decide, by decide⟩

/-- C8, amended: "Point(12.34 56.78)" yields latitude 56.78 (= 5678/10²)
and longitude 12.34 (= 1234/10²) — longitude from the first token,
latitude from the second, never swapped; an absent or empty literal
yields null for both; "Point(abc)" and "Point()" yield null for both, as
does any literal whose wrapper-stripped text does not split into exactly
two tokens, or whose FIRST token is non-numeric; but when the first token
is numeric and only the second is not, the longitude is set from the
first token and only the latitude is null. -/
theorem coordinates_extraction (cv lon_str lat_str : String) (x y : PyFloat) :
    coordinatesFromPointLiteral "Point(12.34 56.78)" =
      (some ⟨5678, 2⟩, some ⟨1234, 2⟩) ∧
    (⟨5678, 2⟩ : PyFloat).toRat = 56.78 ∧
    (⟨1234, 2⟩ : PyFloat).toRat = 12.34 ∧
    rowCoords none = (none, none) ∧
    rowCoords (some "") = (none, none) ∧
    coordinatesFromPointLiteral "Point(abc)" = (none, none) ∧
    coordinatesFromPointLiteral "Point()" = (none, none) ∧
    ((∀ l1 l2, pySplit (pyReplace (pyReplace cv "Point(" "") ")" "") ≠ [l1, l2]) →
      coordinatesFromPointLiteral cv = (none, none)) ∧
    (pySplit (pyReplace (pyReplace cv "Point(" "") ")" "") = [lon_str, lat_str] →
      pyFloat lon_str = none → coordinatesFromPointLiteral cv = (none, none)) ∧
    (pySplit (pyReplace (pyReplace cv "Point(" "") ")" "") = [lon_str, lat_str] →
      pyFloat lon_str = some x → pyFloat lat_str = none →
      coordinatesFromPointLiteral cv = (none, some x)) ∧
    (pySplit (pyReplace (pyReplace cv "Point(" "") ")" "") = [lon_str, lat_str] →
      pyFloat lon_str = some x → pyFloat lat_str = some y →
      coordinatesFromPointLiteral cv = (some y, some x)) := by
  refine ⟨by decide, by norm_num [PyFloat.toRat], by norm_num [PyFloat.toRat],
    rfl, by decide, by decide, by decide, ?_, ?_, ?_, ?_⟩
  · intro hne
    rcases hsp : pySplit (pyReplace (pyReplace cv "Point(" "") ")" "") with
      _ | ⟨a, _ | ⟨b, _ | ⟨c, t⟩⟩⟩
    · simp [coordinatesFromPointLiteral, hsp]
    · simp [coordinatesFromPointLiteral, hsp]
    · exact absurd hsp (hne a b)
    · simp [coordinatesFromPointLiteral, hsp]
  · intro hsp hlon
    simp [coordinatesFromPointLiteral, hsp, hlon]
  · intro hsp hlon hlat
    simp [coordinatesFromPointLiteral, hsp, hlon, hlat]
  · intro hsp hlon hlat
    simp [coordinatesFromPointLiteral, hsp, hlon, hlat]

/-- Witness for C8 at concrete inputs, exercising the hypothesis-bearing
conjuncts: "Point(abc def)" (two tokens, first non-numeric) gives null
for both; "Point(1.5 abc)" (first numeric, second not) keeps longitude
1.5 with null latitude; "Point(2.33 48.85)" gives (lat 48.85, lon 2.33). -/
theorem coordinates_extraction_witness :
    coordinatesFromPointLiteral "Point(abc def)" = (none, none) ∧
    coordinatesFromPointLiteral "Point(1.5 abc)" = (none, some ⟨15, 1⟩) ∧
    coordinatesFromPointLiteral "Point(2.33 48.85)" =
      (some ⟨4885, 2⟩, some ⟨233, 2⟩) := by
  refine ⟨?_, ?_, ?_⟩
  · exact (coordinates_extraction "Point(abc def)" "abc" "def"
      ⟨0, 0⟩ ⟨0, 0⟩).2.2.2.2.2.2.2.2.1 (by decide) (by decide)
  · exact (coordinates_extraction "Point(1.5 abc)" "1.5" "abc"
      ⟨15, 1⟩ ⟨0, 0⟩).2.2.2.2.2.2.2.2.2.1 (by decide) (by decide) (by decide)
  · exact (coordinates_extraction "Point(2.33 48.85)" "2.33" "48.85"
      ⟨233, 2⟩ ⟨4885, 2⟩).2.2.2.2.2.2.2.2.2.2 (by decide) (by decide) (by decide)

/-- C7: year extraction.  For every well-formed ISO-8601 date-time
literal `YYYY-MM-DDTHH:MM:SS` with a trailing "Z" marker (digits with
calendar-valid year/month/day and in-range time fields), the year
derivation of the paintings phase returns the calendar year denoted by
the four year digits; and for the non-parseable strings "" and
"not-a-date" it returns null (`yearFromDateLiteral` is a total Lean
function, so it never raises on any input). -/
theorem year_extraction (y1 y2 y3 y4 m1 m2 d1 d2 hh1 hh2 n1 n2 s1 s2 : Char)
    (hy1 : y1.isDigit = true) (hy2 : y2.isDigit = true)
    (hy3 : y3.isDigit = true) (hy4 : y4.isDigit = true)
    (hm1 : m1.isDigit = true) (hm2 : m2.isDigit = true)
    (hd1 : d1.isDigit = true) (hd2 : d2.isDigit = true)
    (hhh1 : hh1.isDigit = true) (hhh2 : hh2.isDigit = true)
    (hn1 : n1.isDigit = true) (hn2 : n2.isDigit = true)
    (hs1 : s1.isDigit = true) (hs2 : s2.isDigit = true)
    (hy : 1 ≤ digitVal y1 * 1000 + digitVal y2 * 100 + digitVal y3 * 10 + digitVal y4)
    (hmlo : 1 ≤ digitVal m1 * 10 + digitVal m2)
    (hmhi : digitVal m1 * 10 + digitVal m2 ≤ 12)
    (hdlo : 1 ≤ digitVal d1 * 10 + digitVal d2)
    (hdhi : digitVal d1 * 10 + digitVal d2 ≤
      daysInMonth
        (digitVal y1 * 1000 + digitVal y2 * 100 + digitVal y3 * 10 + digitVal y4)
        (digitVal m1 * 10 + digitVal m2))
    (hhh : digitVal hh1 * 10 + digitVal hh2 < 24)
    (hnn : digitVal n1 * 10 + digitVal n2 < 60)
    (hss : digitVal s1 * 10 + digitVal s2 < 60) :
    yearFromDateLiteral ⟨[y1, y2, y3, y4, '-', m1, m2, '-', d1, d2, 'T',
        hh1, hh2, ':', n1, n2, ':', s1, s2, 'Z']⟩ =
      some (Int.ofNat (digitVal y1 * 1000 + digitVal y2 * 100 +
        digitVal y3 * 10 + digitVal y4)) ∧
    yearFromDateLiteral "" = none ∧
    yearFromDateLiteral "not-a-date" = none := by
  refine ⟨?_, by decide, by decide⟩
  unfold yearFromDateLiteral
  rw [pyReplace_Z_filter]
  have hfil : ([y1, y2, y3, y4, '-', m1, m2, '-', d1, d2, 'T',
      hh1, hh2, ':', n1, n2, ':', s1, s2, 'Z'] : List Char).filter (· != 'Z') =
      [y1, y2, y3, y4, '-', m1, m2, '-', d1, d2, 'T',
       hh1, hh2, ':', n1, n2, ':', s1, s2] := by
    simp +decide [List.filter_cons, digit_ne_Z _ hy1, digit_ne_Z _ hy2,
      digit_ne_Z _ hy3, digit_ne_Z _ hy4, digit_ne_Z _ hm1, digit_ne_Z _ hm2,
      digit_ne_Z _ hd1, digit_ne_Z _ hd2, digit_ne_Z _ hhh1, digit_ne_Z _ hhh2,
      digit_ne_Z _ hn1, digit_ne_Z _ hn2, digit_ne_Z _ hs1, digit_ne_Z _ hs2]
  rw [hfil]
  simp [fromisoformatYear, validTimeChars, hy1, hy2, hy3, hy4, hm1, hm2,
    hd1, hd2, hhh1, hhh2, hn1, hn2, hs1, hs2, hy, hmlo, hmhi, hdlo, hdhi,
    hhh, hnn, hss]

/-- Witness for C7: "1889-06-01T00:00:00Z" yields year 1889, and the
non-parseable strings yield null. -/
theorem year_extraction_witness :
    yearFromDateLiteral "1889-06-01T00:00:00Z" = some 1889 ∧
    yearFromDateLiteral "" = none ∧
    yearFromDateLiteral "not-a-date" = none := by
  have h := year_extraction '1' '8' '8' '9' '0' '6' '0' '1' '0' '0' '0' '0' '0' '0'
    (by decide) (by decide) (by decide) (by decide) (by decide) (by decide)
    (by decide) (by decide) (by decide) (by decide) (by decide) (by decide)
    (by decide) (by decide) (by decide) (by decide) (by decide) (by decide)
    (by decide) (by decide) (by decide) (by decide)
  exact ⟨h.1, h.2.1, h.2.2⟩

end Helianthus
